import Mathlib

/-!
Verification of the vector-search core of the repository.

The program has two hosts of one search pipeline:
* the browser worker `public/searchWorker.js` (corpus in a flat vector
  matrix, `cosineSimilarityFlat`, inline keyword boosting, stable sort,
  slice), and
* the server module (loaded as `@/lib/vectorSearch`) with
  `initializeVectorDB`, `cosineSimilarity`, `calculateKeywordBoost` and
  `performVectorSearch`.

The embedding below is a shallow model of that code:
* JavaScript numbers are modelled as rationals (`ℚ`); `Math.sqrt` is an
  explicit function parameter `sqrt : ℚ → ℚ` wherever the code calls it,
  and concrete theorems instantiate it with `sqrtTable`, which agrees
  with `Math.sqrt` on the perfect squares occurring in the concrete data
  used here.
* JavaScript strings are `List Char`; `undefined`/`null` field values are
  `Option`; the JS falsiness test `!fieldValue` on a string field is
  `none` or the empty list.
* Asynchronous host behaviour (the init races) is modelled as explicit
  interleaving of the synchronous segments between `await` points.
-/

/-- JavaScript strings, modelled as lists of characters. -/
abbrev Str := List Char

/-- `String.prototype.toLowerCase`, restricted to the ASCII casing the
corpus uses. -/
def lowerStr (s : Str) : Str := s.map Char.toLower

/-- `String.prototype.trim`: drop leading and trailing whitespace. -/
def trimStr (s : Str) : Str :=
  ((s.dropWhile Char.isWhitespace).reverse.dropWhile Char.isWhitespace).reverse

/-- `haystack.includes(needle)` : substring containment. -/
def jsIncludes (haystack needle : Str) : Bool := decide (needle <:+: haystack)

/-- The JS expression `x || d` on numbers, for the cases arising here:
in `Math.sqrt(m) || 1` the fallback is taken exactly when the magnitude
is `0` (rationals have no `NaN`). -/
def jsOr (x d : ℚ) : ℚ := if x = 0 then d else x

/-- `query.toLowerCase().split(/\s+/).filter(w => w.length > 2)` from both
hosts.  `List.splitOnP` splits at every single whitespace character where
the regex merges runs of whitespace, but the difference only produces
extra empty tokens, which the same length filter removes. -/
def queryWordsOf (query : Str) : List Str :=
  ((lowerStr query).splitOnP Char.isWhitespace).filter (fun w => 2 < w.length)

/-- Stand-in for `Math.sqrt` in concrete theorems: exact on the perfect
squares produced by the concrete corpora and queries used below. -/
def sqrtTable (q : ℚ) : ℚ :=
  if q = 0 then 0 else if q = 1 then 1 else if q = 4 then 2
  else if q = 9 then 3 else if q = 25 then 5 else 0

/-- The scoring-relevant metadata keys of a record
(`entry.metadata.<key>`); every other key of the open metadata bag is
ignored by the search core. -/
structure Metadata where
  extracted_diagnosis : Option Str
  essential_diagnosis : Option Str
  variant : Option Str
  lineage : Option Str
  organ : Option Str
  microscopic : Option Str
deriving DecidableEq

/-- The metadata object `{}` substituted by `entry.metadata || {}`. -/
def emptyMetadata : Metadata := ⟨none, none, none, none, none, none⟩

/-- One corpus record (`VectorEntry` in the server module; the objects
built by `loadDB` in the worker). -/
structure VectorEntry where
  id : ℤ
  text : Str
  diagnosis : Option Str
  organ : Option Str
  system : Option Str
  site : Option Str
  vector : List ℚ
  metadata : Option Metadata
deriving DecidableEq

/-- Placeholder record used for out-of-range list reads (never hit on
well-formed data). -/
def emptyEntry : VectorEntry := ⟨0, [], none, none, none, none, [], none⟩

/-- The PCA artifact `{components, mean, n_components}`. -/
structure PCAModel where
  components : List (List ℚ)
  mean : List ℚ
  n_components : ℕ
deriving DecidableEq

/-- The worker's module-level corpus state after `loadDB`: `entries`,
the flat `vectors` matrix, `numEntries` and `dim`. -/
structure WorkerStore where
  entries : List VectorEntry
  vectors : List ℚ
  numEntries : ℕ
  dim : ℕ
deriving DecidableEq

/-- `loadDB` (searchWorker.js): keep the records, and copy every vector
into one flat row-major buffer; an empty corpus yields `numEntries = 0`,
`dim = 0` and an empty buffer. -/
def loadDB (data : List VectorEntry) : WorkerStore :=
  if data.length = 0 then ⟨data, [], 0, 0⟩
  else
    let dim := (data.headD emptyEntry).vector.length
    let n := data.length
    ⟨data,
     (List.range (n * dim)).map
       (fun k => ((data.getD (k / dim) emptyEntry).vector).getD (k % dim) 0),
     n, dim⟩

/-- `loadPCA` (searchWorker.js): store `components`, `mean` and
`n_components` from the parsed file, with no validation of any kind. -/
def loadPCA (data : PCAModel) : PCAModel :=
  { components := data.components, mean := data.mean,
    n_components := data.n_components }

/-- The PCA projection: center by `mean`, then dot the centered vector
with each of the `n_components` rows.  This code appears twice in the
source, line for line: inline in the worker's `textToVector` and as
`applyPCA` in the server module. -/
def applyPCA (model : PCAModel) (fullVector : List ℚ) : List ℚ :=
  let centered := fullVector.mapIdx (fun i val => val - model.mean.getD i 0)
  (List.range model.n_components).map (fun i =>
    (List.range centered.length).foldl
      (fun sum j => sum + centered.getD j 0 * ((model.components.getD i []).getD j 0))
      0)

/-- `textToVector` of both hosts: obtain the full embedding from the
external embedding capability, then project it with the loaded PCA
model; a missing PCA model is an error (`PCA model not loaded` in the
worker, `Vector search not initialized` in the server — only the message
differs). -/
def textToVector (embed : Str → Except String (List ℚ))
    (pcaModel : Option PCAModel) (text : Str) : Except String (List ℚ) := do
  let fullVector ← embed text
  match pcaModel with
  | none => .error "PCA model not loaded"
  | some m => .ok (applyPCA m fullVector)

/-- `cosineSimilarityFlat` (searchWorker.js): one pass accumulating the
dot product with the query and the record row's squared magnitude, then
`dot / (Math.sqrt(magA) || 1)` — the record's magnitude only. -/
def cosineSimilarityFlat (sqrt : ℚ → ℚ) (queryVec vectorsFlat : List ℚ)
    (idx dim : ℕ) : ℚ :=
  let base := idx * dim
  let acc := (List.range dim).foldl
    (fun (p : ℚ × ℚ) i =>
      (p.1 + queryVec.getD i 0 * vectorsFlat.getD (base + i) 0,
       p.2 + vectorsFlat.getD (base + i) 0 * vectorsFlat.getD (base + i) 0))
    (0, 0)
  acc.1 / jsOr (sqrt acc.2) 1

/-- `cosineSimilarity` (server module): one pass accumulating the dot
product and BOTH squared magnitudes, then
`dot / ((Math.sqrt(magA) || 1) * (Math.sqrt(magB) || 1))` — the product
of both norms, unlike the worker's scorer. -/
def cosineSimilarity (sqrt : ℚ → ℚ) (vecA vecB : List ℚ) : ℚ :=
  let acc := (List.range vecA.length).foldl
    (fun (p : ℚ × ℚ × ℚ) i =>
      (p.1 + vecA.getD i 0 * vecB.getD i 0,
       p.2.1 + vecA.getD i 0 * vecA.getD i 0,
       p.2.2 + vecB.getD i 0 * vecB.getD i 0))
    (0, 0, 0)
  acc.1 / (jsOr (sqrt acc.2.1) 1 * jsOr (sqrt acc.2.2) 1)

/-- The `checkField` helper of both hosts: a falsy field (absent, null,
or the empty string) contributes `0`; otherwise each query word contained
in the lowercased field value adds `weight` once. -/
def checkField (queryWords : List Str) (fieldValue : Option Str) (weight : ℚ) : ℚ :=
  match fieldValue with
  | none => 0
  | some s =>
    if s = [] then 0
    else queryWords.foldl
      (fun matchBoost word =>
        if jsIncludes (lowerStr s) word then matchBoost + weight else matchBoost) 0

/-- The keyword boost of both hosts (`calculateKeywordBoost` in the
server module; the identical inline block of `search` in the worker):
nine weighted `checkField` accumulations, capped at `0.35`. -/
def calculateKeywordBoost (entry : VectorEntry) (queryWords : List Str) : ℚ :=
  let m := entry.metadata.getD emptyMetadata
  let boost : ℚ := 0
  let boost := boost + checkField queryWords m.extracted_diagnosis (20/100)
  let boost := boost + checkField queryWords m.essential_diagnosis (18/100)
  let boost := boost + checkField queryWords m.variant (12/100)
  let boost := boost + checkField queryWords m.lineage (10/100)
  let boost := boost + checkField queryWords m.organ (8/100)
  let boost := boost + checkField queryWords m.microscopic (6/100)
  let boost := boost + checkField queryWords entry.diagnosis (15/100)
  let boost := boost + checkField queryWords entry.organ (5/100)
  let boost := boost + checkField queryWords entry.system (5/100)
  min boost (35/100)

/-- One `{idx, similarity}` element of the `scores` array. -/
structure ScoreEntry where
  idx : ℕ
  similarity : ℚ
deriving DecidableEq

/-- One element of the `results` array either host returns. -/
structure SearchResult where
  id : ℤ
  text : Str
  diagnosis : Option Str
  organ : Option Str
  system : Option Str
  site : Option Str
  similarity : ℚ
  metadata : Option Metadata
deriving DecidableEq

/-- The `{results}` object either `search` resolves with. -/
structure SearchResponse where
  results : List SearchResult
deriving DecidableEq

/-- Insert one score behind every already-placed score of greater or
equal similarity. -/
def insertDesc (x : ScoreEntry) : List ScoreEntry → List ScoreEntry
  | [] => [x]
  | y :: ys => if y.similarity < x.similarity then x :: y :: ys else y :: insertDesc x ys

/-- `scores.sort((a, b) => b.similarity - a.similarity)` of both hosts:
`Array.prototype.sort` is stable (ES2019), and with this comparator its
result is the unique stable descending reordering, which any stable
sorting algorithm — here, insertion in arrival order — produces. -/
def sortScores (l : List ScoreEntry) : List ScoreEntry :=
  l.foldl (fun acc x => insertDesc x acc) []

/-- The per-record score loop of the worker's `search`: for each index,
`cosineSimilarityFlat` against the flat matrix plus the keyword boost,
clamped to `1.0`. -/
def workerScores (sqrt : ℚ → ℚ) (qv : List ℚ) (st : WorkerStore)
    (queryWords : List Str) : List ScoreEntry :=
  (List.range st.numEntries).map (fun i =>
    ⟨i, min (cosineSimilarityFlat sqrt qv st.vectors i st.dim
             + calculateKeywordBoost (st.entries.getD i emptyEntry) queryWords) 1⟩)

/-- The per-record score map of the server's `performVectorSearch`:
`cosineSimilarity` against each entry's own vector plus the keyword
boost, clamped to `1.0`. -/
def serverScores (sqrt : ℚ → ℚ) (qv : List ℚ) (vectorDB : List VectorEntry)
    (queryWords : List Str) : List ScoreEntry :=
  vectorDB.mapIdx (fun idx entry =>
    ⟨idx, min (cosineSimilarity sqrt qv entry.vector
               + calculateKeywordBoost entry queryWords) 1⟩)

/-- Build one result object from a scored index (the `top.map` of the
worker and the `topScores.map` of the server). -/
def toSearchResult (entries : List VectorEntry) (s : ScoreEntry) : SearchResult :=
  let entry := entries.getD s.idx emptyEntry
  ⟨entry.id, entry.text, entry.diagnosis, entry.organ, entry.system,
   entry.site, s.similarity, entry.metadata⟩

/-- The ranked, truncated score list of the worker
(`scores.sort(...).slice(0, limit)`). -/
def workerRanked (sqrt : ℚ → ℚ) (qv : List ℚ) (st : WorkerStore)
    (queryWords : List Str) (lim : ℕ) : List ScoreEntry :=
  (sortScores (workerScores sqrt qv st queryWords)).take lim

/-- The ranked, truncated score list of the server. -/
def serverRanked (sqrt : ℚ → ℚ) (qv : List ℚ) (vectorDB : List VectorEntry)
    (queryWords : List Str) (lim : ℕ) : List ScoreEntry :=
  (sortScores (serverScores sqrt qv vectorDB queryWords)).take lim

/-- `search(query, limit)` of searchWorker.js: short-circuit blank
queries, embed + project, score every record, sort, slice, build
results. -/
def workerSearch (sqrt : ℚ → ℚ) (embed : Str → Except String (List ℚ))
    (pcaModel : Option PCAModel) (st : WorkerStore)
    (query : Str) (lim : ℕ) : Except String SearchResponse :=
  if query.isEmpty || (trimStr query).isEmpty then .ok ⟨[]⟩
  else do
    let qv ← textToVector embed pcaModel query
    let queryWords := queryWordsOf query
    .ok ⟨(workerRanked sqrt qv st queryWords lim).map (toSearchResult st.entries)⟩

/-- `performVectorSearch(query, limit)` of the server module, after
initialization: the same guard and stages, but scoring with the server's
`cosineSimilarity` over per-entry vectors. -/
def performVectorSearch (sqrt : ℚ → ℚ) (embed : Str → Except String (List ℚ))
    (pcaModel : Option PCAModel) (vectorDB : List VectorEntry)
    (query : Str) (lim : ℕ) : Except String SearchResponse :=
  if query.isEmpty || (trimStr query).isEmpty then .ok ⟨[]⟩
  else do
    let qv ← textToVector embed pcaModel query
    let queryWords := queryWordsOf query
    .ok ⟨(serverRanked sqrt qv vectorDB queryWords lim).map (toSearchResult vectorDB)⟩

/-- The similarity values carried by a search outcome, if it succeeded. -/
def similarities (r : Except String SearchResponse) : Option (List ℚ) :=
  match r with
  | .ok resp => some (resp.results.map (fun t => t.similarity))
  | .error _ => none

/-- The `inited` reply the worker posts after handling an `init`
message: `{status, numEntries?}` on success, `{status, error}` on
failure. -/
structure InitReply where
  ok : Bool
  numEntries : Option ℕ
  error : Option String
deriving DecidableEq

/-- The `init` branch of the worker's message handler, on an
uninitialized worker.  The outcomes of the three awaited loads are
passed in explicitly (they are network / module fetches).  The source
performs them in order inside one `try`, sets `initialized = true` only
after all three, and posts an error reply on any failure — earlier
assignments to the module state are not rolled back, and no comparison
of `n_components` with the corpus `dim` is ever made. -/
def workerInit (dbRes : Except String (List VectorEntry))
    (pcaRes : Except String PCAModel) (embRes : Except String Unit) :
    Option WorkerStore × Option PCAModel × Bool × InitReply :=
  match dbRes with
  | .error e => (none, none, false, ⟨false, none, some e⟩)
  | .ok data =>
    let st := loadDB data
    match pcaRes with
    | .error e => (some st, none, false, ⟨false, none, some e⟩)
    | .ok pm =>
      let pca := loadPCA pm
      match embRes with
      | .error e => (some st, some pca, false, ⟨false, none, some e⟩)
      | .ok _ => (some st, some pca, true, ⟨true, some st.numEntries, none⟩)

/-- The module-level state of the server host: `vectorDB`, `pcaModel`,
`embedder`, `initialized`, and `initPromise` modelled by the settled
result of the cached promise (`none` while no promise was ever
created). -/
structure ServerState where
  vectorDB : Option (List VectorEntry)
  pcaModel : Option PCAModel
  embedder : Bool
  initialized : Bool
  initPromise : Option (Except String Unit)

/-- The server state at module load. -/
def ServerState.start : ServerState := ⟨none, none, false, false, none⟩

/-- `initializeVectorDB` of the server module, as a transition on the
module state: return immediately when initialized; await (i.e. return
the settled result of) an existing `initPromise`; otherwise run the
loads in order, assigning each piece of module state as soon as its load
succeeds.  The `catch` block only logs and rethrows: on failure the
promise settles rejected, `initPromise` keeps pointing at it forever
(the source never clears it), and the already-assigned pieces of state
remain in place. -/
def initializeVectorDB (loadCorpus : Except String (List VectorEntry))
    (loadPca : Except String PCAModel) (loadEmbedder : Except String Unit)
    (st : ServerState) : ServerState × Except String Unit :=
  if st.initialized then (st, .ok ())
  else
    match st.initPromise with
    | some r => (st, r)
    | none =>
      match loadCorpus with
      | .error e => ({ st with initPromise := some (.error e) }, .error e)
      | .ok db =>
        let st1 := { st with vectorDB := some db }
        match loadPca with
        | .error e => ({ st1 with initPromise := some (.error e) }, .error e)
        | .ok pm =>
          let st2 := { st1 with pcaModel := some pm }
          match loadEmbedder with
          | .error e => ({ st2 with initPromise := some (.error e) }, .error e)
          | .ok _ =>
            ({ st2 with embedder := true, initialized := true,
                        initPromise := some (.ok ()) }, .ok ())

/-- The `results` reply the worker posts for a `search` message.  The
source posts `{type:'results', query, results}` on success and
`{type:'results', error}` on failure; no `searchId` field appears in
either object, so the model carries the field the protocol (and the
caller, `SearchProvider.tsx`) expects and shows it is never set. -/
structure ResultsMsg where
  query : Option Str
  results : Option (List SearchResult)
  error : Option String
  searchId : Option ℤ
deriving DecidableEq

/-- The `search` branch of the worker's message handler on an
initialized worker: run `search(query, limit)` and post the reply.  The
incoming message's `searchId` is accepted but never copied into the
reply. -/
def handleSearchMessage (sqrt : ℚ → ℚ) (embed : Str → Except String (List ℚ))
    (pcaModel : Option PCAModel) (st : WorkerStore)
    (query : Str) (lim : ℕ) (searchId : Option ℤ) : ResultsMsg :=
  match workerSearch sqrt embed pcaModel st query lim with
  | .ok res => ⟨some query, some res.results, none, none⟩
  | .error e => ⟨none, none, some e, none⟩

/-- The `SearchProvider` callback lookup: `searchCallbacksRef.get(msg.searchId)`.
Pending resolvers are keyed by the integer ids the provider generated;
a reply without a `searchId` field looks up `undefined` and matches
nothing. -/
def providerMatch (pending : List ℤ) (reply : ResultsMsg) : Option ℤ :=
  match reply.searchId with
  | none => none
  | some i => if i ∈ pending then some i else none

/-- Program counter of one `init` message handler in the worker host.
Its synchronous segments: `seg1` reads `initialized` and, when false,
issues the corpus fetch (`await loadDB()`) and suspends; the resumed
continuation performs the PCA fetch and the embedder load and finally
sets `initialized = true`.  The continuation is modelled as one segment
because only the suspension between the `initialized` test and the
`initialized = true` assignment matters for the race. -/
inductive WPc where
  | start
  | loading
  | done
deriving DecidableEq

/-- Shared worker state for the init race: the `initialized` flag, load
counters for the corpus and PCA fetches, and each handler's program
counter. -/
structure WRace where
  inited : Bool
  dbLoads : ℕ
  pcaLoads : ℕ
  pcs : List WPc
deriving DecidableEq

/-- One scheduler step of the worker host: run the next synchronous
segment of handler `i` (out-of-range or finished handlers are no-ops).
The worker is single-threaded: handlers interleave only at `await`
points, which is exactly what these segments encode. -/
def wStep (s : WRace) (i : ℕ) : WRace :=
  match s.pcs.getD i WPc.done with
  | WPc.start =>
    if s.inited then { s with pcs := s.pcs.set i WPc.done }
    else { s with dbLoads := s.dbLoads + 1, pcs := s.pcs.set i WPc.loading }
  | WPc.loading =>
    { s with pcaLoads := s.pcaLoads + 1, inited := true,
             pcs := s.pcs.set i WPc.done }
  | WPc.done => s

/-- Run `n` concurrent worker `init` handlers under a given
interleaving. -/
def wRun (n : ℕ) (sched : List ℕ) : WRace :=
  sched.foldl wStep ⟨false, 0, 0, List.replicate n WPc.start⟩

/-- Program counter of one concurrent `initializeVectorDB` caller in the
server host.  In the source the `initPromise` null-check, the promise
assignment and both synchronous `readFileSync` loads happen in one
synchronous segment (the async IIFE runs up to its first `await`, the
dynamic import, before control returns), so they form one atomic step. -/
inductive SPc where
  | start
  | waitingImport
  | waitingPromise
  | done
deriving DecidableEq

/-- Shared server state for the init race. -/
structure SRace where
  promiseSet : Bool
  inited : Bool
  dbLoads : ℕ
  pcaLoads : ℕ
  pcs : List SPc
deriving DecidableEq

/-- One scheduler step of the server host: a caller at `start` returns
at once when initialized, parks on an existing promise when one is set,
and otherwise creates the promise and performs both synchronous loads in
the same segment; the creator's continuation sets `initialized`; parked
callers simply resume later. -/
def sStep (s : SRace) (i : ℕ) : SRace :=
  match s.pcs.getD i SPc.done with
  | SPc.start =>
    if s.inited then { s with pcs := s.pcs.set i SPc.done }
    else if s.promiseSet then { s with pcs := s.pcs.set i SPc.waitingPromise }
    else { s with promiseSet := true, dbLoads := s.dbLoads + 1,
                  pcaLoads := s.pcaLoads + 1,
                  pcs := s.pcs.set i SPc.waitingImport }
  | SPc.waitingImport =>
    { s with inited := true, pcs := s.pcs.set i SPc.done }
  | SPc.waitingPromise => { s with pcs := s.pcs.set i SPc.done }
  | SPc.done => s

/-- Run `n` concurrent server initialization callers under a given
interleaving. -/
def sRun (n : ℕ) (sched : List ℕ) : SRace :=
  sched.foldl sStep ⟨false, false, 0, 0, List.replicate n SPc.start⟩

/-- The similarity formula as the specification words it: for record
`idx`, `dot / max(magRecord, ε)` with `dot = Σ_j q[j]·M[idx·dim+j]`,
`magRecord = sqrt(Σ_j M[idx·dim+j]²)`, and the guard `ε = 1` substituted
exactly when `magRecord` is zero. -/
def specRecordSimilarity (sqrt : ℚ → ℚ) (queryVec vectorsFlat : List ℚ)
    (idx dim : ℕ) : ℚ :=
  let dot := ((List.range dim).map
    (fun j => queryVec.getD j 0 * vectorsFlat.getD (idx * dim + j) 0)).sum
  let magRecord := sqrt (((List.range dim).map
    (fun j => vectorsFlat.getD (idx * dim + j) 0 ^ 2)).sum)
  dot / (if magRecord = 0 then 1 else magRecord)

/-- Number of query tokens contained in a field, as the specification
words it (absent or empty field: zero matches). -/
def tokenMatches (fieldValue : Option Str) (queryWords : List Str) : ℕ :=
  match fieldValue with
  | none => 0
  | some s =>
    if s = [] then 0 else queryWords.countP (fun w => jsIncludes (lowerStr s) w)

/-- The nine (field, weight) pairs of the boost table, in spec order. -/
def boostRows (entry : VectorEntry) : List (Option Str × ℚ) :=
  let m := entry.metadata.getD emptyMetadata
  [(m.extracted_diagnosis, 20/100), (m.essential_diagnosis, 18/100),
   (m.variant, 12/100), (m.lineage, 10/100), (m.organ, 8/100),
   (m.microscopic, 6/100), (entry.diagnosis, 15/100), (entry.organ, 5/100),
   (entry.system, 5/100)]

/-- The keyword boost as the specification words it:
`min(0.35, Σ weight · matches)` over the nine table rows. -/
def specBoost (entry : VectorEntry) (queryWords : List Str) : ℚ :=
  min (35/100)
    (((boostRows entry).map
      (fun r => r.2 * (tokenMatches r.1 queryWords : ℚ))).sum)

/-- The six metadata contributions of the boost, uncapped. -/
def metadataBoostPart (m : Metadata) (queryWords : List Str) : ℚ :=
  checkField queryWords m.extracted_diagnosis (20/100)
  + checkField queryWords m.essential_diagnosis (18/100)
  + checkField queryWords m.variant (12/100)
  + checkField queryWords m.lineage (10/100)
  + checkField queryWords m.organ (8/100)
  + checkField queryWords m.microscopic (6/100)

/-- The three top-level contributions of the boost, uncapped; a function
of the top-level fields alone, with no access to the metadata. -/
def topLevelBoostPart (diagnosis organ system : Option Str)
    (queryWords : List Str) : ℚ :=
  checkField queryWords diagnosis (15/100)
  + checkField queryWords organ (5/100)
  + checkField queryWords system (5/100)

/-- Folding the per-index pair accumulator of the scorers equals the two
mapped sums. -/
lemma foldl_pair_sum (f g : ℕ → ℚ) (l : List ℕ) (a b : ℚ) :
    l.foldl (fun p i => (p.1 + f i, p.2 + g i)) (a, b)
      = (a + (l.map f).sum, b + (l.map g).sum) := by
  induction l generalizing a b with
  | nil => simp
  | cons x xs ih => simp [ih, add_assoc]

/-- Folding the per-index triple accumulator of the server scorer equals
the three mapped sums. -/
lemma foldl_triple_sum (f g h : ℕ → ℚ) (l : List ℕ) (a b c : ℚ) :
    l.foldl (fun p i => (p.1 + f i, p.2.1 + g i, p.2.2 + h i)) (a, b, c)
      = (a + (l.map f).sum, b + (l.map g).sum, c + (l.map h).sum) := by
  induction l generalizing a b c with
  | nil => simp
  | cons x xs ih => simp [ih, add_assoc]

/-- The worker's `cosineSimilarityFlat` computes exactly the similarity
formula of the specification. -/
lemma cosineFlat_eq_specRecord (sqrt : ℚ → ℚ) (q flat : List ℚ) (idx dim : ℕ) :
    cosineSimilarityFlat sqrt q flat idx dim
      = specRecordSimilarity sqrt q flat idx dim := by
  simp only [cosineSimilarityFlat, specRecordSimilarity, jsOr]
  rw [foldl_pair_sum (fun i => q.getD i 0 * flat.getD (idx * dim + i) 0)
    (fun i => flat.getD (idx * dim + i) 0 * flat.getD (idx * dim + i) 0)]
  simp [pow_two]

/-- Folding the conditional accumulation of `checkField` counts the
matching tokens. -/
lemma foldl_if_add (w : ℚ) (p : Str → Bool) (l : List Str) (a : ℚ) :
    l.foldl (fun acc t => if p t then acc + w else acc) a
      = a + w * (l.countP p : ℚ) := by
  induction l generalizing a with
  | nil => simp
  | cons x xs ih =>
    by_cases h : p x
    · rw [List.foldl_cons, if_pos h, ih, List.countP_cons, if_pos h]
      push_cast
      ring
    · rw [List.foldl_cons, if_neg h, ih, List.countP_cons, if_neg h]
      push_cast
      ring

/-- `checkField` is the field's weight times its token-match count. -/
lemma checkField_eq (queryWords : List Str) (f : Option Str) (w : ℚ) :
    checkField queryWords f w = w * (tokenMatches f queryWords : ℚ) := by
  cases f with
  | none => simp [checkField, tokenMatches]
  | some s =>
    by_cases hs : s = []
    · simp [checkField, tokenMatches, hs]
    · simp [checkField, tokenMatches, hs, foldl_if_add]

/-- Order in which the stable descending sort emits two scores: either
strictly greater similarity, or a tie resolved by original index. -/
def lexAfter (a b : ScoreEntry) : Prop :=
  b.similarity < a.similarity ∨ (a.similarity = b.similarity ∧ a.idx < b.idx)

/-- Membership through `insertDesc`. -/
lemma mem_insertDesc {x y : ScoreEntry} {l : List ScoreEntry} :
    y ∈ insertDesc x l ↔ y = x ∨ y ∈ l := by
  induction l with
  | nil => simp [insertDesc]
  | cons z zs ih =>
    by_cases h : z.similarity < x.similarity
    · simp [insertDesc, h]
    · simp [insertDesc, h, ih]
      tauto

/-- `insertDesc` adds one element. -/
lemma length_insertDesc (x : ScoreEntry) (l : List ScoreEntry) :
    (insertDesc x l).length = l.length + 1 := by
  induction l with
  | nil => rfl
  | cons z zs ih =>
    by_cases h : z.similarity < x.similarity <;> simp [insertDesc, h, ih]

/-- Inserting a score whose original index is above everything already
placed preserves the stable descending order. -/
lemma pairwise_insertDesc {x : ScoreEntry} {l : List ScoreEntry}
    (hl : l.Pairwise lexAfter) (hidx : ∀ y ∈ l, y.idx < x.idx) :
    (insertDesc x l).Pairwise lexAfter := by
  induction l with
  | nil => simp [insertDesc]
  | cons z zs ih =>
    rcases List.pairwise_cons.mp hl with ⟨hz, hzs⟩
    by_cases h : z.similarity < x.similarity
    · simp only [insertDesc, if_pos h]
      refine List.pairwise_cons.mpr ⟨?_, hl⟩
      intro a ha
      rcases List.mem_cons.mp ha with rfl | ha
      · exact Or.inl h
      · rcases hz a ha with h1 | ⟨h1, _⟩
        · exact Or.inl (h1.trans h)
        · exact Or.inl (h1 ▸ h)
    · simp only [insertDesc, if_neg h]
      refine List.pairwise_cons.mpr
        ⟨?_, ih hzs (fun y hy => hidx y (List.mem_cons_of_mem _ hy))⟩
      intro a ha
      rcases mem_insertDesc.mp ha with rfl | ha
      · rcases lt_or_eq_of_le (not_lt.mp h) with hlt | heq
        · exact Or.inl hlt
        · exact Or.inr ⟨heq.symm, hidx z (List.mem_cons_self _ _)⟩
      · exact hz a ha

/-- Folding `insertDesc` over scores with increasing indices yields a
stable descending list. -/
lemma pairwise_foldl_insert (l : List ScoreEntry) :
    ∀ acc : List ScoreEntry, acc.Pairwise lexAfter →
      l.Pairwise (fun a b => a.idx < b.idx) →
      (∀ a ∈ acc, ∀ b ∈ l, a.idx < b.idx) →
      (l.foldl (fun acc x => insertDesc x acc) acc).Pairwise lexAfter := by
  induction l with
  | nil => intro acc h _ _; simpa using h
  | cons x xs ih =>
    intro acc hacc hl hcross
    simp only [List.foldl_cons]
    apply ih
    · exact pairwise_insertDesc hacc
        (fun y hy => hcross y hy x (List.mem_cons_self _ _))
    · exact (List.pairwise_cons.mp hl).2
    · intro a ha b hb
      rcases mem_insertDesc.mp ha with rfl | ha
      · exact (List.pairwise_cons.mp hl).1 b hb
      · exact hcross a ha b (List.mem_cons_of_mem _ hb)

/-- The sorted score list is stably descending whenever the input
indices increase (as the score arrays of both hosts do). -/
lemma pairwise_sortScores {l : List ScoreEntry}
    (h : l.Pairwise (fun a b => a.idx < b.idx)) :
    (sortScores l).Pairwise lexAfter := by
  unfold sortScores
  exact pairwise_foldl_insert l [] (by simp) h (by simp)

/-- Sorting preserves the number of scores. -/
lemma length_sortScores (l : List ScoreEntry) :
    (sortScores l).length = l.length := by
  unfold sortScores
  suffices h : ∀ acc : List ScoreEntry,
      (l.foldl (fun acc x => insertDesc x acc) acc).length
        = acc.length + l.length by
    simpa using h []
  induction l with
  | nil => intro acc; simp
  | cons x xs ih =>
    intro acc
    simp only [List.foldl_cons, ih, length_insertDesc, List.length_cons]
    omega

/-- The worker's score array carries strictly increasing indices. -/
lemma pairwise_idx_workerScores (sqrt : ℚ → ℚ) (qv : List ℚ)
    (st : WorkerStore) (qws : List Str) :
    (workerScores sqrt qv st qws).Pairwise (fun a b => a.idx < b.idx) := by
  unfold workerScores
  rw [List.pairwise_map]
  simpa using List.pairwise_lt_range st.numEntries

/-- `enum` carries strictly increasing first components. -/
lemma pairwise_fst_enum {α : Type} (l : List α) :
    l.enum.Pairwise (fun p q => p.1 < q.1) := by
  have h := List.pairwise_lt_range l.length
  rw [← List.enum_map_fst l] at h
  exact List.pairwise_map.mp h

/-- The server's score array carries strictly increasing indices. -/
lemma pairwise_idx_serverScores (sqrt : ℚ → ℚ) (qv : List ℚ)
    (db : List VectorEntry) (qws : List Str) :
    (serverScores sqrt qv db qws).Pairwise (fun a b => a.idx < b.idx) := by
  unfold serverScores
  rw [List.mapIdx_eq_enum_map, List.pairwise_map]
  exact (pairwise_fst_enum db).imp (fun h => h)

/-- Single-flight invariant of the server host: each load has run
exactly once as soon as the shared promise exists, and never before. -/
def sInv (s : SRace) : Prop :=
  s.dbLoads = (if s.promiseSet then 1 else 0)
  ∧ s.pcaLoads = (if s.promiseSet then 1 else 0)

/-- Every scheduler step of the server host preserves the single-flight
invariant. -/
lemma sStep_inv (s : SRace) (i : ℕ) (h : sInv s) : sInv (sStep s i) := by
  obtain ⟨h1, h2⟩ := h
  unfold sStep
  cases hpc : s.pcs.getD i SPc.done with
  | start =>
    dsimp only
    by_cases hi : s.inited
    · rw [if_pos hi]
      exact ⟨h1, h2⟩
    · rw [if_neg hi]
      by_cases hp : s.promiseSet
      · rw [if_pos hp]
        exact ⟨h1, h2⟩
      · rw [if_neg hp]
        rw [if_neg hp] at h1 h2
        exact ⟨by simp [sInv, h1], by simp [sInv, h2]⟩
  | waitingImport => exact ⟨h1, h2⟩
  | waitingPromise => exact ⟨h1, h2⟩
  | done => exact ⟨h1, h2⟩

/-- Any interleaving of any number of concurrent server initialization
callers performs at most one corpus load and one PCA load, and exactly
one of each once the shared promise exists. -/
lemma sRun_single_flight (n : ℕ) (sched : List ℕ) : sInv (sRun n sched) := by
  unfold sRun
  suffices h : ∀ s, sInv s → sInv (sched.foldl sStep s) by
    exact h _ (by simp [sInv])
  induction sched with
  | nil => intro s hs; simpa using hs
  | cons i is ih => intro s hs; exact ih _ (sStep_inv s i hs)

/-- `List.range 1` evaluated. -/
lemma range_one : List.range 1 = [0] := rfl

/-- `List.range 2` evaluated. -/
lemma range_two : List.range 2 = [0, 1] := rfl

/-- The sequential nine-term accumulation of `calculateKeywordBoost` is
the capped weighted sum of token-match counts of the spec's table. -/
lemma calculateKeywordBoost_eq_spec (entry : VectorEntry) (qws : List Str) :
    calculateKeywordBoost entry qws = specBoost entry qws := by
  simp only [calculateKeywordBoost, specBoost, boostRows, List.map_cons,
    List.map_nil, List.sum_cons, List.sum_nil, checkField_eq]
  rw [min_comm]
  congr 1
  ring

/-- The boost splits into a metadata part and a top-level part that is a
function of the top-level fields alone. -/
lemma calculateKeywordBoost_decomp (entry : VectorEntry) (qws : List Str) :
    calculateKeywordBoost entry qws
      = min (metadataBoostPart (entry.metadata.getD emptyMetadata) qws
             + topLevelBoostPart entry.diagnosis entry.organ entry.system qws)
          (35/100) := by
  simp only [calculateKeywordBoost, metadataBoostPart, topLevelBoostPart]
  congr 1
  ring

/-- Concrete corpus used in the cross-host counterexample: one record
whose stored vector is `[4, 3]`. -/
def entryC : VectorEntry := ⟨1, ['c','a','s','e'], none, none, none, none, [4, 3], none⟩

/-- The one-record corpus as the server holds it. -/
def dbC : List VectorEntry := [entryC]

/-- The one-record corpus as the worker holds it, via `loadDB`. -/
def stC : WorkerStore := loadDB dbC

/-- Identity 2-component PCA model for the counterexample. -/
def pcaC : PCAModel := ⟨[[1, 0], [0, 1]], [0, 0], 2⟩

/-- Fixed external embedding capability: every text embeds to `[3, 4]`. -/
def embedC : Str → Except String (List ℚ) := fun _ => .ok [3, 4]

/-- The concrete query (`"abc"`): non-blank, and its only token matches
no field of `entryC`, so keyword boost is zero. -/
def queryC : Str := ['a', 'b', 'c']

/-- C3.  The worker's reply to a `search` message never carries a
`searchId` field — `{type:'results', query, results}` and
`{type:'results', error}` are posted without echoing `msg.searchId` — so
the caller-supplied correlation id is not echoed back and the provider's
id-keyed callback lookup can never match. -/
theorem search_reply_drops_search_id :
    (∀ (sqrt : ℚ → ℚ) (embed : Str → Except String (List ℚ))
      (pca : Option PCAModel) (st : WorkerStore) (query : Str) (lim : ℕ)
      (sid : Option ℤ),
      (handleSearchMessage sqrt embed pca st query lim sid).searchId = none)
    ∧ (handleSearchMessage sqrtTable embedC (some pcaC) stC queryC 10
        (some 7)).searchId ≠ some 7
    ∧ (∀ (pending : List ℤ) (sqrt : ℚ → ℚ)
        (embed : Str → Except String (List ℚ)) (pca : Option PCAModel)
        (st : WorkerStore) (query : Str) (lim : ℕ) (sid : Option ℤ),
        providerMatch pending (handleSearchMessage sqrt embed pca st query lim sid)
          = none) := by
  have h : ∀ (sqrt : ℚ → ℚ) (embed : Str → Except String (List ℚ))
      (pca : Option PCAModel) (st : WorkerStore) (query : Str) (lim : ℕ)
      (sid : Option ℤ),
      (handleSearchMessage sqrt embed pca st query lim sid).searchId = none := by
    intro sqrt embed pca st query lim sid
    cases hr : workerSearch sqrt embed pca st query lim <;>
      simp [handleSearchMessage, hr]
  refine ⟨h, ?_, ?_⟩
  · rw [h]
    simp
  · intro pending sqrt embed pca st query lim sid
    simp [providerMatch, h]

/-- Three-dimensional one-record corpus for the dimension-mismatch
scenario. -/
def db3 : List VectorEntry := [⟨1, [], none, none, none, none, [1, 1, 1], none⟩]

/-- PCA model with `n_components = 2`, mismatching the corpus `dim = 3`. -/
def pca2 : PCAModel := ⟨[[1], [1]], [0], 2⟩

/-- C4.  Loading a PCA model whose `n_components` (2) differs from the
corpus `dim` (3) raises no configuration error in either host: the
worker's init completes with `{status:'ok'}` and sets `initialized`, and
the server's `initializeVectorDB` resolves successfully — neither load
path compares `n_components` with `dim`, so searches can then run
against the mismatched model. -/
theorem mismatched_pca_loads_without_error :
    (loadDB db3).dim = 3
    ∧ pca2.n_components = 2
    ∧ (workerInit (.ok db3) (.ok pca2) (.ok ())).2.2.1 = true
    ∧ (workerInit (.ok db3) (.ok pca2) (.ok ())).2.2.2 = ⟨true, some 1, none⟩
    ∧ (initializeVectorDB (.ok db3) (.ok pca2) (.ok ()) ServerState.start).2
        = .ok ()
    ∧ (initializeVectorDB (.ok db3) (.ok pca2) (.ok ())
        ServerState.start).1.initialized = true :=
  ⟨rfl, rfl, rfl, rfl, rfl, rfl⟩

/-- Well-formed one-record corpus for the failed-load scenario. -/
def dbG : List VectorEntry := [⟨1, [], none, none, none, none, [1], none⟩]

/-- Well-formed PCA model for the failed-load scenario. -/
def pcaG : PCAModel := ⟨[[1]], [0], 1⟩

/-- Server module state after a first initialization whose corpus load
succeeded and whose PCA load failed. -/
def failedState : ServerState :=
  (initializeVectorDB (.ok dbG) (.error "malformed PCA") (.ok ())
    ServerState.start).1

/-- C5.  When the corpus load succeeds and the PCA load fails, the
server host surfaces the failure, but leaves `vectorDB` populated
(partially initialized state) and keeps the rejected `initPromise`
cached forever: a subsequent call with now-good loaders performs no load
and returns the same stale failure — retry from scratch is impossible.
The worker host likewise keeps its partially populated store after a
failed init. -/
theorem failed_load_leaves_state_and_blocks_retry :
    (initializeVectorDB (.ok dbG) (.error "malformed PCA") (.ok ())
        ServerState.start).2 = .error "malformed PCA"
    ∧ failedState.vectorDB = some dbG
    ∧ failedState.initialized = false
    ∧ initializeVectorDB (.ok dbG) (.ok pcaG) (.ok ()) failedState
        = (failedState, .error "malformed PCA")
    ∧ (workerInit (.ok dbG) (.error "malformed PCA") (.ok ())).1
        = some (loadDB dbG)
    ∧ (workerInit (.ok dbG) (.error "malformed PCA") (.ok ())).2.2.1 = false :=
  ⟨rfl, rfl, rfl, rfl, rfl, rfl⟩

/-- C8.  For every limit, store, embedding capability and PCA model,
searching the empty string or a whitespace-only string returns
`{results: []}` successfully in both hosts; the result is the same for
every embedding capability and every `sqrt`, which is the shallow form
of "the embedding pipeline and the scorer are never invoked". -/
theorem blank_query_short_circuits :
    ∀ (sqrt : ℚ → ℚ) (embed : Str → Except String (List ℚ))
      (pca : Option PCAModel) (st : WorkerStore) (db : List VectorEntry)
      (lim : ℕ),
      workerSearch sqrt embed pca st [] lim = .ok ⟨[]⟩
      ∧ workerSearch sqrt embed pca st [' ', ' ', ' '] lim = .ok ⟨[]⟩
      ∧ performVectorSearch sqrt embed pca db [] lim = .ok ⟨[]⟩
      ∧ performVectorSearch sqrt embed pca db [' ', ' ', ' '] lim = .ok ⟨[]⟩ :=
  fun _ _ _ _ _ _ => ⟨rfl, rfl, rfl, rfl⟩

/-- C9 counterexample.  In the worker host, two `init` messages
interleaved at the `await` points (`[0, 1, 0, 1]`: both handlers run
their first segment before either finishes) both observe
`initialized === false` and both fetch the corpus: two corpus loads for
two concurrent callers, not one. -/
theorem worker_host_duplicates_loads :
    (wRun 2 [0, 1, 0, 1]).dbLoads = 2
    ∧ (wRun 2 [0, 1, 0, 1]).pcs = [WPc.done, WPc.done]
    ∧ ¬((wRun 2 [0, 1, 0, 1]).dbLoads = 1) := by
  decide

/-- C9 amended.  In the request-handler host the `initPromise` guard is
single-flight: under every interleaving of every number of concurrent
`initializeVectorDB` callers, the corpus and PCA loads each run exactly
once as soon as any caller has started the shared load, and never twice;
in particular two concurrent callers produce exactly one load each. -/
theorem server_host_single_flight :
    (∀ (n : ℕ) (sched : List ℕ),
      (sRun n sched).dbLoads = (if (sRun n sched).promiseSet then 1 else 0)
      ∧ (sRun n sched).pcaLoads = (if (sRun n sched).promiseSet then 1 else 0))
    ∧ (sRun 2 [0, 1, 0, 1]).dbLoads = 1
    ∧ (sRun 2 [0, 1, 0, 1]).pcaLoads = 1
    ∧ (sRun 2 [0, 1, 0, 1]).pcs = [SPc.done, SPc.done] := by
  refine ⟨fun n sched => sRun_single_flight n sched, by decide, by decide, by decide⟩

/-- The one-record worker store evaluated. -/
lemma stC_val : stC = ⟨dbC, [4, 3], 1, 2⟩ := rfl

/-- The concrete query is not blank. -/
lemma queryC_not_blank : (queryC.isEmpty || (trimStr queryC).isEmpty) = false := by
  decide

/-- Tokenizing the concrete query yields its single word. -/
lemma queryWordsC : queryWordsOf queryC = [queryC] := by decide

/-- Embedding and projecting the concrete query yields `[3, 4]` (the
identity PCA model leaves the fixed embedding unchanged). -/
lemma textToVector_C : textToVector embedC (some pcaC) queryC = .ok [3, 4] := by
  norm_num [textToVector, embedC, applyPCA, pcaC, range_two,
    List.mapIdx_cons, List.mapIdx_nil, Bind.bind, Except.bind]

/-- The concrete record matches no token of the concrete query, so its
keyword boost is zero. -/
lemma boost_entryC : calculateKeywordBoost entryC [queryC] = 0 := by
  norm_num [calculateKeywordBoost, checkField, entryC, emptyMetadata]

/-- The worker scorer on the concrete data: `24 / 5` (normalized only by
the record's magnitude `5`; the query magnitude `5` is ignored). -/
lemma cosFlat_C : cosineSimilarityFlat sqrtTable [3, 4] [4, 3] 0 2 = 24 / 5 := by
  norm_num [cosineSimilarityFlat, range_two, jsOr, sqrtTable]

/-- The server scorer on the same data: `24 / 25` (normalized by the
product of both magnitudes). -/
lemma cosSrv_C : cosineSimilarity sqrtTable [3, 4] [4, 3] = 24 / 25 := by
  norm_num [cosineSimilarity, range_two, jsOr, sqrtTable]

/-- The spec's record-normalized formula on the same data: `24 / 5`. -/
lemma specRec_C : specRecordSimilarity sqrtTable [3, 4] [4, 3] 0 2 = 24 / 5 := by
  norm_num [specRecordSimilarity, range_two, sqrtTable]

/-- The worker's score array on the concrete data: the single record
scores `min (24/5 + 0) 1 = 1`. -/
lemma workerScores_C :
    workerScores sqrtTable [3, 4] stC [queryC] = [⟨0, 1⟩] := by
  norm_num [workerScores, range_one, stC_val, dbC, cosFlat_C, boost_entryC,
    min_def]

/-- The server's score array on the concrete data: the single record
scores `min (24/25 + 0) 1 = 24/25`. -/
lemma serverScores_C :
    serverScores sqrtTable [3, 4] dbC [queryC] = [⟨0, 24/25⟩] := by
  have h : cosineSimilarity sqrtTable [3, 4] entryC.vector = 24 / 25 := cosSrv_C
  norm_num [serverScores, dbC, List.mapIdx_cons, List.mapIdx_nil, h,
    boost_entryC, min_def]

/-- Worker pipeline outcome on the concrete data: one result with
(clamped) similarity `1`. -/
lemma workerC_sims :
    similarities (workerSearch sqrtTable embedC (some pcaC) stC queryC 10)
      = some [1] := by
  norm_num [similarities, workerSearch, queryC_not_blank, textToVector_C,
    queryWordsC, workerRanked, workerScores_C, sortScores, insertDesc,
    toSearchResult, Bind.bind, Except.bind]

/-- Server pipeline outcome on the same data: one result with similarity
`24/25`. -/
lemma serverC_sims :
    similarities (performVectorSearch sqrtTable embedC (some pcaC) dbC queryC 10)
      = some [24/25] := by
  norm_num [similarities, performVectorSearch, queryC_not_blank, textToVector_C,
    queryWordsC, serverRanked, serverScores_C, sortScores, insertDesc,
    toSearchResult, Bind.bind, Except.bind]

/-- C1.  With the embedding capability, corpus, PCA model, query and
limit all fixed, the worker-host pipeline and the request-handler-host
pipeline return different per-record similarity values (1 versus 24/25):
the two hosts do not implement the same scorer. -/
theorem pipelines_disagree_across_hosts :
    similarities (workerSearch sqrtTable embedC (some pcaC) stC queryC 10)
      = some [1]
    ∧ similarities (performVectorSearch sqrtTable embedC (some pcaC) dbC queryC 10)
      = some [24/25]
    ∧ ¬(workerSearch sqrtTable embedC (some pcaC) stC queryC 10
        = performVectorSearch sqrtTable embedC (some pcaC) dbC queryC 10) := by
  refine ⟨workerC_sims, serverC_sims, fun h => ?_⟩
  have hw := workerC_sims
  rw [h, serverC_sims] at hw
  simp only [Option.some.injEq, List.cons.injEq] at hw
  norm_num at hw

/-- C2.  The worker's scorer equals the spec formula
`dot / max(magRecord, ε)` for every input, but the server's scorer does
not: on query `[3,4]` against record `[4,3]` the spec formula gives
`24/5` while the server divides by the product of both norms and gives
`24/25`.  The claim that BOTH hosts normalize only by the record's norm
fails on the server host. -/
theorem server_scorer_not_record_normalized :
    (∀ (sqrt : ℚ → ℚ) (q flat : List ℚ) (idx dim : ℕ),
      cosineSimilarityFlat sqrt q flat idx dim
        = specRecordSimilarity sqrt q flat idx dim)
    ∧ cosineSimilarity sqrtTable [3, 4] [4, 3] = 24 / 25
    ∧ specRecordSimilarity sqrtTable [3, 4] [4, 3] 0 2 = 24 / 5
    ∧ ¬(cosineSimilarity sqrtTable [3, 4] [4, 3]
        = specRecordSimilarity sqrtTable [3, 4] [4, 3] 0 2) := by
  refine ⟨cosineFlat_eq_specRecord, cosSrv_C, specRec_C, fun h => ?_⟩
  rw [cosSrv_C, specRec_C] at h
  norm_num at h

/-- C6.  The keyword boost of both hosts equals the spec's
`min(0.35, Σ weight × matches)` over the nine-row table for every record
and query, and every per-record score in both hosts' score arrays is
`min(similarity + boost, 1)`, hence never above `1`. -/
theorem keyword_boost_matches_spec_table :
    (∀ (entry : VectorEntry) (query : Str),
      calculateKeywordBoost entry (queryWordsOf query)
        = specBoost entry (queryWordsOf query))
    ∧ (∀ (sqrt : ℚ → ℚ) (qv : List ℚ) (st : WorkerStore) (qws : List Str)
        (s : ScoreEntry), s ∈ workerScores sqrt qv st qws →
        s.similarity
          = min (cosineSimilarityFlat sqrt qv st.vectors s.idx st.dim
                 + calculateKeywordBoost (st.entries.getD s.idx emptyEntry) qws) 1
        ∧ s.similarity ≤ 1)
    ∧ (∀ (sqrt : ℚ → ℚ) (qv : List ℚ) (db : List VectorEntry) (qws : List Str)
        (s : ScoreEntry), s ∈ serverScores sqrt qv db qws →
        s.similarity
          = min (cosineSimilarity sqrt qv (db.getD s.idx emptyEntry).vector
                 + calculateKeywordBoost (db.getD s.idx emptyEntry) qws) 1
        ∧ s.similarity ≤ 1) := by
  refine ⟨fun entry query => calculateKeywordBoost_eq_spec entry _, ?_, ?_⟩
  · intro sqrt qv st qws s hs
    unfold workerScores at hs
    rcases List.mem_map.mp hs with ⟨i, _, rfl⟩
    exact ⟨rfl, min_le_right _ _⟩
  · intro sqrt qv db qws s hs
    unfold serverScores at hs
    rw [List.mapIdx_eq_enum_map] at hs
    rcases List.mem_map.mp hs with ⟨p, hp, rfl⟩
    obtain ⟨hlt, hval⟩ := List.mem_enum hp
    have hg : db.getD p.1 emptyEntry = p.2 := by
      rw [List.getD_eq_getElem?_getD, List.getElem?_eq_getElem hlt, hval]
      rfl
    refine ⟨?_, min_le_right _ _⟩
    simp only [Function.uncurry]
    rw [hg]

/-- Witness for C6: concrete score entry of the concrete worker corpus,
with the membership hypothesis discharged and the clamped-score equation
instantiated. -/
theorem keyword_boost_matches_spec_table_witness :
    (⟨0, 1⟩ : ScoreEntry) ∈ workerScores sqrtTable [3, 4] stC [queryC]
    ∧ ((⟨0, 1⟩ : ScoreEntry).similarity
        = min (cosineSimilarityFlat sqrtTable [3, 4] stC.vectors 0 stC.dim
               + calculateKeywordBoost (stC.entries.getD 0 emptyEntry) [queryC]) 1
      ∧ (⟨0, 1⟩ : ScoreEntry).similarity ≤ 1) := by
  have hm : (⟨0, 1⟩ : ScoreEntry) ∈ workerScores sqrtTable [3, 4] stC [queryC] := by
    rw [workerScores_C]
    exact List.mem_singleton.mpr rfl
  exact ⟨hm, keyword_boost_matches_spec_table.2.1 sqrtTable [3, 4] stC [queryC]
    ⟨0, 1⟩ hm⟩

/-- A score emitted earlier by the stable descending sort has at least
the similarity of any later one. -/
lemma lexAfter_desc {a b : ScoreEntry} (h : lexAfter a b) :
    b.similarity ≤ a.similarity := by
  rcases h with hlt | ⟨heq, _⟩
  · exact le_of_lt hlt
  · exact le_of_eq heq.symm

/-- Among scores emitted by the stable descending sort, ties keep the
original corpus order. -/
lemma lexAfter_tie {a b : ScoreEntry} (h : lexAfter a b) :
    a.similarity = b.similarity → a.idx < b.idx := by
  rcases h with hlt | ⟨_, hidx⟩
  · intro heq2
    rw [heq2] at hlt
    exact absurd hlt (lt_irrefl _)
  · intro _
    exact hidx

/-- C7 (amended: "non-empty" read as passing the blank-query guard).
For every query that is non-blank, every limit, and every embedding
outcome, both hosts succeed and return the sorted, truncated ranking:
exactly `min limit numRecords` results, sorted descending by boosted
similarity, ties kept in original corpus order; a limit above the corpus
size returns the whole corpus sorted. -/
theorem ranker_sorted_stable_truncated
    (sqrt : ℚ → ℚ) (embed : Str → Except String (List ℚ))
    (pca : Option PCAModel) (st : WorkerStore) (db : List VectorEntry)
    (query : Str) (lim : ℕ) (qv : List ℚ)
    (hq : (query.isEmpty || (trimStr query).isEmpty) = false)
    (ht : textToVector embed pca query = .ok qv) :
    workerSearch sqrt embed pca st query lim
      = .ok ⟨(workerRanked sqrt qv st (queryWordsOf query) lim).map
              (toSearchResult st.entries)⟩
    ∧ performVectorSearch sqrt embed pca db query lim
      = .ok ⟨(serverRanked sqrt qv db (queryWordsOf query) lim).map
              (toSearchResult db)⟩
    ∧ (workerRanked sqrt qv st (queryWordsOf query) lim).length
        = min lim st.numEntries
    ∧ (serverRanked sqrt qv db (queryWordsOf query) lim).length
        = min lim db.length
    ∧ (workerRanked sqrt qv st (queryWordsOf query) lim).Pairwise
        (fun a b => b.similarity ≤ a.similarity)
    ∧ (workerRanked sqrt qv st (queryWordsOf query) lim).Pairwise
        (fun a b => a.similarity = b.similarity → a.idx < b.idx)
    ∧ (serverRanked sqrt qv db (queryWordsOf query) lim).Pairwise
        (fun a b => b.similarity ≤ a.similarity)
    ∧ (serverRanked sqrt qv db (queryWordsOf query) lim).Pairwise
        (fun a b => a.similarity = b.similarity → a.idx < b.idx) := by
  have hwlex : (workerRanked sqrt qv st (queryWordsOf query) lim).Pairwise lexAfter :=
    List.Pairwise.sublist (List.take_sublist _ _)
      (pairwise_sortScores (pairwise_idx_workerScores sqrt qv st _))
  have hslex : (serverRanked sqrt qv db (queryWordsOf query) lim).Pairwise lexAfter :=
    List.Pairwise.sublist (List.take_sublist _ _)
      (pairwise_sortScores (pairwise_idx_serverScores sqrt qv db _))
  refine ⟨?_, ?_, ?_, ?_, hwlex.imp lexAfter_desc, hwlex.imp lexAfter_tie,
    hslex.imp lexAfter_desc, hslex.imp lexAfter_tie⟩
  · simp [workerSearch, hq, ht, Bind.bind, Except.bind]
  · simp [performVectorSearch, hq, ht, Bind.bind, Except.bind]
  · simp [workerRanked, List.length_take, length_sortScores, workerScores]
  · simp [serverRanked, List.length_take, length_sortScores, serverScores]

/-- Witness for C7: the concrete corpus, query and limit 10 (greater
than the corpus size 1), with both hypotheses discharged. -/
theorem ranker_sorted_stable_truncated_witness :
    (queryC.isEmpty || (trimStr queryC).isEmpty) = false
    ∧ textToVector embedC (some pcaC) queryC = .ok [3, 4]
    ∧ (workerSearch sqrtTable embedC (some pcaC) stC queryC 10
        = .ok ⟨(workerRanked sqrtTable [3, 4] stC (queryWordsOf queryC) 10).map
                (toSearchResult stC.entries)⟩
      ∧ performVectorSearch sqrtTable embedC (some pcaC) dbC queryC 10
        = .ok ⟨(serverRanked sqrtTable [3, 4] dbC (queryWordsOf queryC) 10).map
                (toSearchResult dbC)⟩
      ∧ (workerRanked sqrtTable [3, 4] stC (queryWordsOf queryC) 10).length
          = min 10 stC.numEntries
      ∧ (serverRanked sqrtTable [3, 4] dbC (queryWordsOf queryC) 10).length
          = min 10 dbC.length
      ∧ (workerRanked sqrtTable [3, 4] stC (queryWordsOf queryC) 10).Pairwise
          (fun a b => b.similarity ≤ a.similarity)
      ∧ (workerRanked sqrtTable [3, 4] stC (queryWordsOf queryC) 10).Pairwise
          (fun a b => a.similarity = b.similarity → a.idx < b.idx)
      ∧ (serverRanked sqrtTable [3, 4] dbC (queryWordsOf queryC) 10).Pairwise
          (fun a b => b.similarity ≤ a.similarity)
      ∧ (serverRanked sqrtTable [3, 4] dbC (queryWordsOf queryC) 10).Pairwise
          (fun a b => a.similarity = b.similarity → a.idx < b.idx)) :=
  ⟨queryC_not_blank, textToVector_C,
    ranker_sorted_stable_truncated sqrtTable embedC (some pcaC) stC dbC queryC
      10 [3, 4] queryC_not_blank textToVector_C⟩

/-- C7 counterexample.  The whitespace-only query `" "` is a non-empty
string, yet with limit 1 on the one-record corpus both hosts return zero
results, not `min(limit, numRecords) = 1`: the claim is false for
non-empty-but-blank queries (the blank guard of C8 fires first). -/
theorem nonempty_whitespace_query_returns_no_results :
    ([' '] : Str) ≠ []
    ∧ workerSearch sqrtTable embedC (some pcaC) stC [' '] 1 = .ok ⟨[]⟩
    ∧ performVectorSearch sqrtTable embedC (some pcaC) dbC [' '] 1 = .ok ⟨[]⟩
    ∧ stC.numEntries = 1
    ∧ ¬((0 : ℕ) = min 1 stC.numEntries) :=
  ⟨by decide, rfl, rfl, rfl, by decide⟩

/-- The query token used in the double-boost example. -/
def colonW : Str := ['c', 'o', 'l', 'o', 'n']

/-- Record whose `metadata.organ` and top-level `organ` both contain the
token. -/
def entryBoth : VectorEntry :=
  ⟨2, [], none, some colonW, none, none, [1],
   some ⟨none, none, none, none, some colonW, none⟩⟩

/-- The token is a substring of the (lowercased) field. -/
lemma colon_in_colon : jsIncludes (lowerStr colonW) colonW = true := by decide

/-- The token is a non-empty string. -/
lemma colonW_ne_nil : ¬(colonW = []) := by decide

/-- C10.  The three top-level fields are added to the boost
unconditionally: the boost always decomposes as
`min(metadataPart + topLevelPart, 0.35)` where the top-level part is a
function of the top-level fields alone (the same for every metadata
value), and a record matching one token in both `metadata.organ` and
top-level `organ` accumulates `0.08 + 0.05 = 0.13`. -/
theorem top_level_fields_always_boost :
    (∀ (entry : VectorEntry) (qws : List Str),
      calculateKeywordBoost entry qws
        = min (metadataBoostPart (entry.metadata.getD emptyMetadata) qws
               + topLevelBoostPart entry.diagnosis entry.organ entry.system qws)
            (35/100))
    ∧ (∀ (entry : VectorEntry) (md : Option Metadata) (qws : List Str),
      calculateKeywordBoost { entry with metadata := md } qws
        = min (metadataBoostPart (md.getD emptyMetadata) qws
               + topLevelBoostPart entry.diagnosis entry.organ entry.system qws)
            (35/100))
    ∧ calculateKeywordBoost entryBoth [colonW] = 13/100
    ∧ (8 : ℚ)/100 + 5/100 = 13/100 := by
  refine ⟨calculateKeywordBoost_decomp, ?_, ?_, by norm_num⟩
  · intro entry md qws
    exact calculateKeywordBoost_decomp { entry with metadata := md } qws
  · norm_num [calculateKeywordBoost, checkField, entryBoth, emptyMetadata,
      colon_in_colon, colonW_ne_nil, min_def]
